import Mathlib

/-!
Verification development for the hops event-driven orchestrator.

The Go sources are shallowly embedded: broker calls (JetStream publish,
ordered-consumer reads, consumer creation, acks) are passed in as explicit
oracle values or functions, byte slices become `List Nat`, durations are in
nanoseconds, and the side effects a callback performs (ack, nak, term, ...)
are recorded as explicit action lists.
-/

namespace Hops

/-- Broker publish acknowledgement; the code never inspects it, so it is
abstracted to its stream sequence number. -/
abbrev PubAck := Nat

/-- Channel constants from the nats package. -/
def ChannelNotify : String := "notify"

def ChannelRequest : String := "request"

/-- Embedding of Go strings.Contains on character lists: does pat occur as a
contiguous substring of s. -/
def containsSub : List Char → List Char → Bool
  | [], pat => pat.isEmpty
  | c :: rest, pat => pat.isPrefixOf (c :: rest) || containsSub rest pat

/-- Embedding of Go strings.Join: concatenate with sep between elements. -/
def goJoin (sep : String) : List String → String
  | [] => ""
  | [x] => x
  | x :: y :: rest => x ++ sep ++ goJoin sep (y :: rest)

/-- Duplicate-fence error text matched by Client.Publish. -/
def dupFenceText : String := "maximum messages per subject exceeded"

/-- Error-code text matched by Runner.dispatchCall. -/
def errCode10077 : String := "err_code=10077"

/-- Subject construction of Client.Publish: a single token containing a dot is
passed through as a full subject, otherwise the account id is prepended and the
tokens are joined with dots. -/
def isFullSubject (subjTokens : List String) : Bool :=
  subjTokens.length == 1 && containsSub (subjTokens.headD "").toList ['.']

def publishSubject (accountId : String) (subjTokens : List String) : String :=
  if isFullSubject subjTokens then subjTokens.headD ""
  else goJoin "." (accountId :: subjTokens)

/-- Observable outcome of one Client.Publish call: the subject and payload
handed to the broker, and the (puback, error, sent) triple returned. -/
structure PublishOut where
  subject : String
  data : List Nat
  puback : Option PubAck
  error : Option String
  sent : Bool
  deriving DecidableEq, Repr

/-- Embedding of Client.Publish. The broker oracle maps the subject to the
result of JetStream.Publish. An error containing the duplicate-fence text is
swallowed and reported as sent=false; any other error is returned; success
returns the puback with sent=true. -/
def clientPublish (accountId : String) (data : List Nat) (subjTokens : List String)
    (broker : String → Except String PubAck) : PublishOut :=
  let subject := publishSubject accountId subjTokens
  match broker subject with
  | Except.error e =>
      if containsSub e.toList dupFenceText.toList then
        { subject := subject, data := data, puback := none, error := none, sent := false }
      else
        { subject := subject, data := data, puback := none, error := some e, sent := true }
  | Except.ok ack =>
      { subject := subject, data := data, puback := some ack, error := none, sent := true }

/-- A parsed message delivered by the ordered consumer inside
FetchMessageBundle: the result of a successful Parse of one raw stream
message matching the sequence filter. -/
structure StreamMsg where
  messageId : String
  streamSequence : Nat
  data : List Nat
  deriving DecidableEq, Repr

/-- Message bundle: map from message id to payload, embedded as an association
list whose insert overwrites an existing key (last writer wins). -/
abbrev MessageBundle := List (String × List Nat)

def bundleInsert : MessageBundle → String → List Nat → MessageBundle
  | [], k, v => [(k, v)]
  | (k0, v0) :: rest, k, v =>
    if k0 == k then (k0, v) :: rest else (k0, v0) :: bundleInsert rest k v

inductive FetchErr
  | overrun
  | readFailed
  deriving DecidableEq, Repr

/-- Embedding of the read loop of Client.FetchMessageBundle: walk the
messages the ordered consumer delivers; error when a stream sequence beyond
the trigger is seen; insert each message; stop at the trigger sequence.
A read that runs out of messages (msgCtx.Next failing) is readFailed. -/
def fetchLoop (n : Nat) : List StreamMsg → MessageBundle → Except FetchErr MessageBundle
  | [], _ => Except.error FetchErr.readFailed
  | m :: rest, bundle =>
    if m.streamSequence > n then Except.error FetchErr.overrun
    else
      let bundle := bundleInsert bundle m.messageId m.data
      if m.streamSequence == n then Except.ok bundle
      else fetchLoop n rest bundle

/-- Embedding of Client.FetchMessageBundle for a triggering message with
stream sequence n, over the history the ordered consumer delivers. -/
def fetchMessageBundle (n : Nat) (history : List StreamMsg) : Except FetchErr MessageBundle :=
  fetchLoop n history []

/-- Bundle built by inserting every listed message in order. -/
def mkBundle (msgs : List StreamMsg) : MessageBundle :=
  msgs.foldl (fun b m => bundleInsert b m.messageId m.data) []

/-- Modelled from the spec: parsed message metadata produced by the message
parser (nats.Parse), which is not under src/; only the fields the consume
wrapper uses are carried. -/
structure MsgMeta where
  sequenceId : String
  messageId : String
  streamSequence : Nat
  deriving DecidableEq, Repr

/-- Nak delay used by ConsumeSequences, in nanoseconds (3 * time.Second). -/
def threeSecondsNs : Nat := 3 * 1000000000

inductive SeqAction
  | term
  | nakWithDelay (delayNs : Nat)
  | invokeHandler
  | ack
  deriving DecidableEq, Repr

/-- Outcome of one run of the callback ConsumeSequences installs: the broker
acknowledgement actions it performed plus whether it panicked instead of
returning normally. -/
structure SeqCbOutcome where
  actions : List SeqAction
  panicked : Bool
  deriving DecidableEq, Repr

/-- Embedding of the callback closed over by Client.ConsumeSequences.
parseRes is the result of Parse, fetchRes the result of FetchMessageBundle,
handlerErr the result of handler.SequenceCallback on the fetched bundle.
On fetch failure the source naks with a 3 s delay and then hits a leftover
debugging panic (its return statement is commented out). -/
def consumeSequencesCallback (parseRes : Option MsgMeta)
    (fetchRes : Except String MessageBundle)
    (handlerErr : MessageBundle → Option String) : SeqCbOutcome :=
  match parseRes with
  | none => { actions := [SeqAction.term], panicked := false }
  | some _ =>
    match fetchRes with
    | Except.error _ =>
        { actions := [SeqAction.nakWithDelay threeSecondsNs], panicked := true }
    | Except.ok bundle =>
        match handlerErr bundle with
        | some _ =>
            { actions := [SeqAction.invokeHandler, SeqAction.nakWithDelay threeSecondsNs],
              panicked := false }
        | none =>
            { actions := [SeqAction.invokeHandler, SeqAction.ack], panicked := false }

/-- Modelled from the spec: the slice of parsed request metadata the worker
loop reads. The parser and the response-subject derivation (MsgMeta
ResponseSubject) are not under src/, so the derived response subject is
carried as a field. -/
structure ParsedRequest where
  handlerName : String
  responseSubject : String
  deriving DecidableEq, Repr

/-- Modelled from the spec: the result message workers publish
(started_at, finished_at, status, error). Timestamps are abstract Nat
clock readings. -/
structure ResultMsg where
  startedAt : Nat
  finishedAt : Nat
  status : String
  error : Option String
  deriving DecidableEq, Repr

inductive WorkerAction
  | nak
  | term
  | runHandlerAct
  | publishResultAct (subject : String) (result : ResultMsg)
  | doubleAck
  deriving DecidableEq, Repr

/-- Embedding of the callback inside Worker.Run. Parameters carry the
outcomes of the fallible collaborator calls: parseRes from nats.Parse,
handlerErr from runHandler, publishErr from PublishResult, ackErr from
DoubleAck. startedAt is captured right after parsing, finishedAt when a
handler failure is recorded. A DoubleAck failure is only logged: ackErr
does not change the action list (the nak there is an unresolved TODO in
the source). -/
def workerCallback (knownHandlers : List String) (parseRes : Option ParsedRequest)
    (handlerErr : Option String) (publishErr : Option String) (ackErr : Option String)
    (startedAt finishedAt : Nat) : List WorkerAction :=
  match parseRes with
  | none => [WorkerAction.nak]
  | some p =>
    if knownHandlers.contains p.handlerName then
      match handlerErr with
      | some e =>
          let result : ResultMsg :=
            { startedAt := startedAt, finishedAt := finishedAt, status := "FAILURE",
              error := some e }
          match publishErr with
          | some _ =>
              [WorkerAction.runHandlerAct,
                WorkerAction.publishResultAct p.responseSubject result, WorkerAction.nak]
          | none =>
              [WorkerAction.runHandlerAct,
                WorkerAction.publishResultAct p.responseSubject result, WorkerAction.doubleAck]
      | none => [WorkerAction.runHandlerAct, WorkerAction.doubleAck]
    else [WorkerAction.term]

/-- Decode payload bytes as a string, for comparing a bundle entry with a
rule body. -/
def stringOfBytes (bs : List Nat) : String :=
  String.mk (bs.map Char.ofNat)

/-- Embedding of Runner.sequenceHops: both branches of the presence check on
the bundle key hops return the runner's preloaded body. -/
def sequenceHops (runnerHops : String) (msgBundle : MessageBundle) : String :=
  match msgBundle.lookup "hops" with
  | none => runnerHops
  | some _ => runnerHops

/-- Rule-body selection as the claim words it, for comparison with
sequenceHops: the bundle's hops entry when the key is present, else the
preloaded default. -/
def sequenceHopsClaimed (runnerHops : String) (msgBundle : MessageBundle) : String :=
  match msgBundle.lookup "hops" with
  | none => runnerHops
  | some v => stringOfBytes v

/-- Call block of the parsed rule AST, as used by the dispatcher. -/
structure CallAST where
  taskType : String
  name : String
  slug : String
  inputs : List Nat
  deriving DecidableEq, Repr

/-- On block of the parsed rule AST, as used by the dispatcher. -/
structure OnAST where
  eventType : String
  name : String
  slug : String
  calls : List CallAST
  deriving DecidableEq, Repr

/-- Split a character list at the first occurrence of sep. -/
def cutList : List Char → Char → Option (List Char × List Char)
  | [], _ => none
  | c :: rest, sep =>
    if c == sep then some ([], rest)
    else
      match cutList rest sep with
      | some (pre, post) => some (c :: pre, post)
      | none => none

/-- Embedding of Go strings.Cut with a single-character separator: the text
before and after the first occurrence plus a found flag; when absent,
(s, "", false). -/
def goCut (s : String) (sep : Char) : String × String × Bool :=
  match cutList s.toList sep with
  | some (pre, post) => (String.mk pre, String.mk post, true)
  | none => (s, "", false)

/-- Embedding of Runner.dispatchCall (the body of one fan-out task): split
task_type on the first underscore; when no separator is found, contribute an
error and publish nothing; otherwise publish the inputs on the request
subject and contribute the publish error unless it matches err_code=10077.
Returns (publish performed, error contributed to the error channel). -/
def dispatchCall (accountId sequenceId : String) (call : CallAST)
    (broker : String → Except String PubAck) : Option PublishOut × Option String :=
  let (app, handler, found) := goCut call.taskType '_'
  if !found then
    (none, some ("Unable to parse app/handler from call " ++ call.name))
  else
    let out := clientPublish accountId call.inputs
        [ChannelRequest, sequenceId, call.slug, app, handler] broker
    match out.error with
    | some e =>
        if containsSub e.toList errCode10077.toList then (some out, none)
        else (some out, some e)
    | none => (some out, none)

/-- Embedding of Runner.dispatchCalls: every call of the On block is
dispatched; the non-nil error contributions gathered from the channel are
joined (errors.Join is nil iff the list is empty). -/
def dispatchCalls (accountId sequenceId : String) (broker : String → Except String PubAck)
    (sensor : OnAST) : List String :=
  (sensor.calls.map (fun c => (dispatchCall accountId sequenceId c broker).2)).filterMap id

/-- Embedding of the dispatch loop of Runner.SequenceCallback: every On block
is processed, appending each block's aggregated errors (multierror.Append);
the overall error is nil iff the list is empty. -/
def sequenceCallbackErrors (accountId sequenceId : String)
    (broker : String → Except String PubAck) : List OnAST → List String
  | [] => []
  | o :: rest =>
      dispatchCalls accountId sequenceId broker o ++
        sequenceCallbackErrors accountId sequenceId broker rest

/-- Events the supervisor select loop of Worker.runHandler can observe, in
order: a ticker tick whose InProgress call succeeds or fails, or the handler
goroutine finishing with its result. -/
inductive SupEvent
  | tickOk
  | tickFail (e : String)
  | handlerDone (r : Option String)
  deriving DecidableEq, Repr

inductive SupAction
  | inProgress
  | returned (r : Option String)
  deriving DecidableEq, Repr

/-- Ticker period of Worker.runHandler: ack-wait minus a third (Go integer
division on nanoseconds). -/
def tickerPeriod (ackWait : Nat) : Nat := ackWait - ackWait / 3

/-- The select loop of Worker.runHandler: each successful tick sends an
in-progress extension and continues; a failing extension returns its error;
handler completion returns the handler's result. -/
def supervisorLoop : List SupEvent → List SupAction
  | [] => []
  | SupEvent.tickOk :: rest => SupAction.inProgress :: supervisorLoop rest
  | SupEvent.tickFail e :: _ => [SupAction.inProgress, SupAction.returned (some e)]
  | SupEvent.handlerDone r :: _ => [SupAction.returned r]

/-- Embedding of Worker.runHandler: the ticker period it arms, and the
action trace, beginning with the immediate in-progress signal sent before
the loop. -/
def runHandlerTrace (ackWait : Nat) (events : List SupEvent) : Nat × List SupAction :=
  (tickerPeriod ackWait, SupAction.inProgress :: supervisorLoop events)

/-- Last action of a supervisor trace; a returned action there is the value
runHandler returned with. -/
def lastAction : List SupAction → Option SupAction
  | [] => none
  | [a] => some a
  | _ :: b :: rest => lastAction (b :: rest)

/-- Modelled from the spec: subject codec SourceEventSubject (not under
src/), the retained source event of a sequence:
account.notify.sequence_id.event. -/
def SourceEventSubject (accountId sequenceId : String) : String :=
  accountId ++ ".notify." ++ sequenceId ++ ".event"

/-- Modelled from the spec: subject codec ReplayFilterSubject (not under
src/), the filter of the replay consumer: account.notify.replay_id.*. -/
def ReplayFilterSubject (accountId replaySequenceId : String) : String :=
  accountId ++ ".notify." ++ replaySequenceId ++ ".*"

/-- Observable state of a client built by the replay construction path: the
ephemeral consumer's configuration and the seed publish it performed. -/
structure ReplayInit where
  consumerName : String
  consumerDurable : Bool
  filterSubject : String
  deliverAll : Bool
  publishedSubject : String
  publishedData : List Nat
  deriving DecidableEq, Repr

/-- Replay sequence id minted by initReplayConsumer: the replay marker
followed by the first 20 characters of a fresh UUID string. -/
def mkReplaySequenceId (uuidStr : String) : String :=
  "replay-" ++ String.mk (uuidStr.toList.take 20)

/-- Embedding of Client.initReplayConsumer. getLastMsg is the broker's
GetLastMsgForSubject oracle (stream lookup folded in), createConsumerErr the
result of CreateConsumer, broker the JetStream publish oracle. The seed
publish result is discarded by the source, so the function succeeds no
matter what broker returns. -/
def initReplayConsumer (accountId sequenceId uuidStr : String)
    (getLastMsg : String → Except String (Option (List Nat)))
    (createConsumerErr : Option String)
    (broker : String → Except String PubAck) : Except String ReplayInit :=
  match getLastMsg (SourceEventSubject accountId sequenceId) with
  | Except.error e => Except.error ("Failed to fetch source event: " ++ e)
  | Except.ok none =>
      Except.error ("No source event found for subject " ++
        SourceEventSubject accountId sequenceId)
  | Except.ok (some srcData) =>
      let replaySequenceId := mkReplaySequenceId uuidStr
      match createConsumerErr with
      | some e => Except.error e
      | none =>
          let pubOut := clientPublish accountId srcData
              [ChannelNotify, replaySequenceId, "event"] broker
          Except.ok
            { consumerName := replaySequenceId
              consumerDurable := false
              filterSubject := ReplayFilterSubject accountId replaySequenceId
              deliverAll := true
              publishedSubject := pubOut.subject
              publishedData := pubOut.data }

/-- Embedding of NewReplayClient: connection then JetStream setup then
initReplayConsumer; the first failure aborts, otherwise the client with the
replay consumer state is handed back. -/
def newReplayClient (connectErr jetStreamErr : Option String)
    (replayInit : Except String ReplayInit) : Except String ReplayInit :=
  match connectErr with
  | some e => Except.error e
  | none =>
      match jetStreamErr with
      | some e => Except.error e
      | none => replayInit

end Hops

namespace Hops

/-- C2: Client.Publish treats a broker error containing the duplicate-fence
text as a successful no-op (error=nil, sent=false); any other broker error is
returned to the caller; and a successful broker publish yields error=nil and
sent=true. -/
theorem publish_error_contract (accountId : String) (data : List Nat)
    (subjTokens : List String) (broker : String → Except String PubAck) :
    (∀ e, broker (publishSubject accountId subjTokens) = Except.error e →
      (containsSub e.toList dupFenceText.toList = true →
        (clientPublish accountId data subjTokens broker).error = none ∧
        (clientPublish accountId data subjTokens broker).sent = false) ∧
      (containsSub e.toList dupFenceText.toList = false →
        (clientPublish accountId data subjTokens broker).error = some e)) ∧
    (∀ a, broker (publishSubject accountId subjTokens) = Except.ok a →
      (clientPublish accountId data subjTokens broker).error = none ∧
      (clientPublish accountId data subjTokens broker).sent = true) := by
  constructor
  · intro e he
    constructor
    · intro hdup
      simp only [String.toList] at hdup
      simp [clientPublish, he, hdup]
    · intro hdup
      simp only [String.toList] at hdup
      simp [clientPublish, he, hdup]
  · intro a ha
    simp [clientPublish, ha]

/-- Witness for C2: the three publish outcomes at concrete broker results. -/
theorem publish_error_contract_witness :
    (clientPublish "acct" [1] ["notify", "SEQ", "M1"]
      (fun _ => Except.error "nats: maximum messages per subject exceeded")).error = none ∧
    (clientPublish "acct" [1] ["notify", "SEQ", "M1"]
      (fun _ => Except.error "nats: maximum messages per subject exceeded")).sent = false :=
  ((publish_error_contract "acct" [1] ["notify", "SEQ", "M1"]
      (fun _ => Except.error "nats: maximum messages per subject exceeded")).1
    "nats: maximum messages per subject exceeded" rfl).1 (by decide)

/-- Helper: on a history whose stream sequences are strictly increasing and
contain the trigger sequence n, the fetch loop succeeds and the bundle is the
fold of inserts over the messages with sequence at most n. -/
theorem fetchLoop_sorted_ok (n : Nat) :
    ∀ (l : List StreamMsg) (b : MessageBundle),
      List.Pairwise (fun a c => a.streamSequence < c.streamSequence) l →
      (∃ m ∈ l, m.streamSequence = n) →
      fetchLoop n l b =
        Except.ok ((l.filter (fun m => m.streamSequence ≤ n)).foldl
          (fun b2 m => bundleInsert b2 m.messageId m.data) b) := by
  intro l
  induction l with
  | nil =>
      intro b _ hex
      simp at hex
  | cons m rest ih =>
      intro b hpw hex
      have hall : ∀ x ∈ rest, m.streamSequence < x.streamSequence :=
        (List.pairwise_cons.mp hpw).1
      have hrest := (List.pairwise_cons.mp hpw).2
      have hnotgt : ¬ (m.streamSequence > n) := by
        rcases hex with ⟨x, hx, hxn⟩
        rcases List.mem_cons.mp hx with h | h
        · subst h
          omega
        · have := hall x h
          omega
      by_cases heq : m.streamSequence = n
      · have hfilter : rest.filter (fun x => x.streamSequence ≤ n) = [] := by
          rw [List.filter_eq_nil_iff]
          intro x hx
          have := hall x hx
          simp
          omega
        simp [fetchLoop, hnotgt, heq, hfilter]
      · have hlt : m.streamSequence ≤ n := by omega
        have hex2 : ∃ x ∈ rest, x.streamSequence = n := by
          rcases hex with ⟨x, hx, hxn⟩
          rcases List.mem_cons.mp hx with h | h
          · subst h
            exact absurd hxn heq
          · exact ⟨x, h, hxn⟩
        simp [fetchLoop, hnotgt, heq, hlt, ih _ hrest hex2]

/-- Helper: when the ordered read reaches a message whose stream sequence
exceeds n without having met the trigger, the fetch loop reports overrun. -/
theorem fetchLoop_overrun (n : Nat) :
    ∀ (pre : List StreamMsg) (m : StreamMsg) (post : List StreamMsg) (b : MessageBundle),
      (∀ p ∈ pre, p.streamSequence ≠ n) → m.streamSequence > n →
      fetchLoop n (pre ++ m :: post) b = Except.error FetchErr.overrun := by
  intro pre
  induction pre with
  | nil =>
      intro m post b _ hm
      simp [fetchLoop, hm]
  | cons p rest ih =>
      intro m post b hpre hm
      have hp : p.streamSequence ≠ n := hpre p (by simp)
      by_cases hgt : p.streamSequence > n
      · simp [fetchLoop, hgt]
      · simp [fetchLoop, hgt, hp]
        exact ih m post _ (fun q hq => hpre q (by simp [hq])) hm

/-- C1: every successfully fetched bundle for a trigger with stream sequence
n maps message ids to payloads for exactly the delivered messages with stream
sequence at most n, the trigger included, later duplicates overwriting
earlier ones; and whenever the ordered read delivers a message whose stream
sequence exceeds n before one equal to n, FetchMessageBundle fails with the
overrun error. -/
theorem fetchMessageBundle_correct (n : Nat) (history : List StreamMsg) :
    (List.Pairwise (fun a c => a.streamSequence < c.streamSequence) history →
      (∃ m ∈ history, m.streamSequence = n) →
      fetchMessageBundle n history =
        Except.ok (mkBundle (history.filter (fun m => m.streamSequence ≤ n)))) ∧
    (∀ pre m post, history = pre ++ m :: post →
      (∀ p ∈ pre, p.streamSequence ≠ n) → m.streamSequence > n →
      fetchMessageBundle n history = Except.error FetchErr.overrun) := by
  constructor
  · intro hpw hex
    unfold fetchMessageBundle mkBundle
    exact fetchLoop_sorted_ok n history [] hpw hex
  · intro pre m post hsplit hpre hm
    subst hsplit
    exact fetchLoop_overrun n pre m post [] hpre hm

/-- Witness for C1: a three-message history triggered by its last message. -/
theorem fetchMessageBundle_correct_witness :
    fetchMessageBundle 3
        [⟨"event", 1, [10]⟩, ⟨"step1", 2, [20]⟩, ⟨"step2", 3, [30]⟩] =
      Except.ok (mkBundle (List.filter (fun m => m.streamSequence ≤ 3)
        [⟨"event", 1, [10]⟩, ⟨"step1", 2, [20]⟩, ⟨"step2", 3, [30]⟩])) :=
  (fetchMessageBundle_correct 3
      [⟨"event", 1, [10]⟩, ⟨"step1", 2, [20]⟩, ⟨"step2", 3, [30]⟩]).1
    (by decide) (by decide)

/-- C3: at a message that parses but whose bundle fetch fails, the
ConsumeSequences callback naks with a 3 second delay and never invokes the
handler, but then panics on a leftover debugging panic instead of returning
normally: the claim's parse and handler clauses hold, while its clause that
the callback returns normally after a failed fetch does not. -/
theorem consumeSequences_fetchfail_panics :
    consumeSequencesCallback (some ⟨"SEQ", "M1", 3⟩)
        (Except.error "bundle fetch failed") (fun _ => none) =
      { actions := [SeqAction.nakWithDelay threeSecondsNs], panicked := true } ∧
    consumeSequencesCallback none (Except.ok []) (fun _ => none) =
      { actions := [SeqAction.term], panicked := false } ∧
    consumeSequencesCallback (some ⟨"SEQ", "M1", 3⟩) (Except.ok [])
        (fun _ => some "handler failed") =
      { actions := [SeqAction.invokeHandler, SeqAction.nakWithDelay threeSecondsNs],
        panicked := false } ∧
    consumeSequencesCallback (some ⟨"SEQ", "M1", 3⟩) (Except.ok []) (fun _ => none) =
      { actions := [SeqAction.invokeHandler, SeqAction.ack], panicked := false } := by
  refine ⟨rfl, rfl, rfl, rfl⟩

/-- C4: on a request whose parse, handler and result publish succeed but
whose final DoubleAck fails, the worker callback performs no negative
acknowledgement: the ack failure is only logged (the nak is an unresolved
TODO in the source), so the claim's final clause fails on the code. -/
theorem worker_ackfail_not_nakked :
    workerCallback ["h1"]
        (some { handlerName := "h1", responseSubject := "acct.notify.SEQ.c1" })
        none none (some "nats: timeout") 5 9 =
      [WorkerAction.runHandlerAct, WorkerAction.doubleAck] ∧
    WorkerAction.nak ∉
      workerCallback ["h1"]
        (some { handlerName := "h1", responseSubject := "acct.notify.SEQ.c1" })
        none none (some "nats: timeout") 5 9 := by
  refine ⟨rfl, by decide⟩

/-- Counterexample for C5: a bundle carrying a hops entry for which the
selected rule body is still the runner's preloaded default, not the bundle
entry the claim promises. -/
theorem sequenceHops_claim_false :
    sequenceHops "on push {}" [("hops", [111, 110])] ≠
      sequenceHopsClaimed "on push {}" [("hops", [111, 110])] := by
  decide

/-- C5 (amended): the rule body evaluated by a sequence callback is always
the runner's preloaded default; a hops entry in the bundle is looked up but
never used. -/
theorem sequenceHops_always_default (runnerHops : String) (msgBundle : MessageBundle) :
    sequenceHops runnerHops msgBundle = runnerHops := by
  unfold sequenceHops
  cases msgBundle.lookup "hops" <;> rfl

/-- Helper: cutList finds nothing when the separator does not occur. -/
theorem cutList_not_mem (sep : Char) :
    ∀ cs : List Char, sep ∉ cs → cutList cs sep = none := by
  intro cs
  induction cs with
  | nil => intro _; rfl
  | cons c rest ih =>
      intro h
      have hc : ¬ (c = sep) := fun hcc => h (by simp [hcc])
      have hr : sep ∉ rest := fun hrr => h (by simp [hrr])
      simp [cutList, hc, ih hr]

/-- Helper: cutList splits at the first occurrence of the separator. -/
theorem cutList_mem (sep : Char) :
    ∀ cs : List Char, sep ∈ cs →
      cutList cs sep =
        some (cs.takeWhile (fun c => !(c == sep)),
          (cs.dropWhile (fun c => !(c == sep))).tail) := by
  intro cs
  induction cs with
  | nil => intro h; simp at h
  | cons c rest ih =>
      intro hmem
      by_cases hc : c = sep
      · subst hc
        simp [cutList]
      · have hsep : sep ∈ rest := by
          rcases List.mem_cons.mp hmem with h | h
          · exact absurd h.symm hc
          · exact h
        simp [cutList, hc, ih hsep]

/-- C6: dispatching the calls of matched On blocks never short-circuits: a
call without an underscore in its task_type contributes exactly one error
and no publish; the error contributions of an On block's calls are gathered
independently, so siblings of a failed call still appear; blocks are
processed one after the other with their errors appended; and the aggregated
error is nil exactly when every call of every block contributed no error. -/
theorem dispatch_aggregation (accountId sequenceId : String)
    (broker : String → Except String PubAck) :
    (∀ c : CallAST, ('_' ∉ c.taskType.toList) →
      dispatchCall accountId sequenceId c broker =
        (none, some ("Unable to parse app/handler from call " ++ c.name))) ∧
    (∀ et nm sl pre c post,
      dispatchCalls accountId sequenceId broker ⟨et, nm, sl, pre ++ c :: post⟩ =
        dispatchCalls accountId sequenceId broker ⟨et, nm, sl, pre⟩ ++
          ((dispatchCall accountId sequenceId c broker).2).toList ++
          dispatchCalls accountId sequenceId broker ⟨et, nm, sl, post⟩) ∧
    (∀ ons1 ons2, sequenceCallbackErrors accountId sequenceId broker (ons1 ++ ons2) =
      sequenceCallbackErrors accountId sequenceId broker ons1 ++
        sequenceCallbackErrors accountId sequenceId broker ons2) ∧
    (∀ ons, sequenceCallbackErrors accountId sequenceId broker ons = [] ↔
      ∀ o ∈ ons, ∀ c ∈ o.calls, (dispatchCall accountId sequenceId c broker).2 = none) := by
  refine ⟨?_, ?_, ?_, ?_⟩
  · intro c hc
    have hcut := cutList_not_mem '_' c.taskType.toList hc
    simp only [String.toList] at hcut
    simp [dispatchCall, goCut, hcut]
  · intro et nm sl pre c post
    cases hx : (dispatchCall accountId sequenceId c broker).2 <;>
      simp [dispatchCalls, List.filterMap_append, hx]
  · intro ons1 ons2
    induction ons1 with
    | nil => rfl
    | cons o rest ih => simp [sequenceCallbackErrors, ih]
  · intro ons
    induction ons with
    | nil => simp [sequenceCallbackErrors]
    | cons o rest ih =>
        simp [sequenceCallbackErrors, ih, dispatchCalls, List.filterMap_eq_nil_iff]

/-- Witness for C6: a single matched On with one well-formed call whose
publish succeeds aggregates to the nil error. -/
theorem dispatch_aggregation_witness :
    sequenceCallbackErrors "acct" "SEQ" (fun _ => Except.ok 1)
        [{ eventType := "push", name := "push0", slug := "push0",
           calls := [{ taskType := "github_tag", name := "tag", slug := "push0-tag",
                       inputs := [1] }] }] = [] :=
  ((dispatch_aggregation "acct" "SEQ" (fun _ => Except.ok 1)).2.2.2
    [{ eventType := "push", name := "push0", slug := "push0",
       calls := [{ taskType := "github_tag", name := "tag", slug := "push0-tag",
                   inputs := [1] }] }]).mpr (by decide)

/-- Helper: the subject actually published never depends on the broker's
answer. -/
theorem clientPublish_subject (accountId : String) (data : List Nat)
    (subjTokens : List String) (broker : String → Except String PubAck) :
    (clientPublish accountId data subjTokens broker).subject =
      publishSubject accountId subjTokens := by
  cases hb : broker (publishSubject accountId subjTokens) <;>
    simp [clientPublish, hb] <;> split <;> rfl

/-- Helper: the payload actually published is the one handed in. -/
theorem clientPublish_data (accountId : String) (data : List Nat)
    (subjTokens : List String) (broker : String → Except String PubAck) :
    (clientPublish accountId data subjTokens broker).data = data := by
  cases hb : broker (publishSubject accountId subjTokens) <;>
    simp [clientPublish, hb] <;> split <;> rfl

/-- Helper: merging the literal request channel into a dotted join. -/
theorem dotted_request (X : String) :
    ("." : String) ++ ("request." ++ X) = ".request." ++ X := by
  rw [← String.append_assoc]
  have lit : ("." : String) ++ "request." = ".request." := by decide
  rw [lit]

/-- Helper: when the task_type split finds a separator, the first component
of dispatchCall always carries the performed publish. -/
theorem dispatchCall_found_fst (accountId sequenceId : String) (call : CallAST)
    (broker : String → Except String PubAck) (app handler : String)
    (hgo : goCut call.taskType '_' = (app, handler, true)) :
    (dispatchCall accountId sequenceId call broker).1 =
      some (clientPublish accountId call.inputs
        [ChannelRequest, sequenceId, call.slug, app, handler] broker) := by
  simp only [dispatchCall, hgo]
  cases hx : (clientPublish accountId call.inputs
      [ChannelRequest, sequenceId, call.slug, app, handler] broker).error <;>
    simp [hx, apply_ite]

/-- C7: a call whose task_type holds an underscore is split at the first
underscore into app and handler, and its inputs are published on the subject
account.request.sequence_id.call_slug.app.handler. -/
theorem dispatchCall_request_subject (accountId sequenceId : String) (call : CallAST)
    (broker : String → Except String PubAck)
    (h : '_' ∈ call.taskType.toList) :
    ∃ out, (dispatchCall accountId sequenceId call broker).1 = some out ∧
      out.data = call.inputs ∧
      out.subject =
        accountId ++ ".request." ++ sequenceId ++ "." ++ call.slug ++ "." ++
          String.mk (call.taskType.toList.takeWhile (fun c => !(c == '_'))) ++ "." ++
          String.mk ((call.taskType.toList.dropWhile (fun c => !(c == '_'))).tail) := by
  have hcut := cutList_mem '_' call.taskType.toList h
  simp only [String.toList] at hcut
  have hgo : goCut call.taskType '_' =
      (String.mk (call.taskType.toList.takeWhile (fun c => !(c == '_'))),
        String.mk ((call.taskType.toList.dropWhile (fun c => !(c == '_'))).tail), true) := by
    simp [goCut, String.toList, hcut]
  refine ⟨_, dispatchCall_found_fst accountId sequenceId call broker _ _ hgo,
    clientPublish_data _ _ _ _, ?_⟩
  rw [clientPublish_subject]
  simp [publishSubject, isFullSubject, goJoin, ChannelRequest, String.append_assoc,
    dotted_request]

/-- Witness for C7: a concrete github_tag call is published on the request
subject with app github and handler tag. -/
theorem dispatchCall_request_subject_witness :
    ∃ out, (dispatchCall "acct" "SEQ"
        ⟨"github_tag", "tag", "push0-github-tag", [2]⟩ (fun _ => Except.ok 1)).1 = some out ∧
      out.data = (⟨"github_tag", "tag", "push0-github-tag", [2]⟩ : CallAST).inputs ∧
      out.subject =
        "acct" ++ ".request." ++ "SEQ" ++ "." ++
          (⟨"github_tag", "tag", "push0-github-tag", [2]⟩ : CallAST).slug ++ "." ++
          String.mk ((⟨"github_tag", "tag", "push0-github-tag", [2]⟩ :
            CallAST).taskType.toList.takeWhile (fun c => !(c == '_'))) ++ "." ++
          String.mk (((⟨"github_tag", "tag", "push0-github-tag", [2]⟩ :
            CallAST).taskType.toList.dropWhile (fun c => !(c == '_'))).tail) :=
  dispatchCall_request_subject "acct" "SEQ"
    ⟨"github_tag", "tag", "push0-github-tag", [2]⟩
    (fun _ => Except.ok 1) (by decide)

/-- Helper: a run of successful ticks contributes one in-progress action
each and the loop continues with the remaining events. -/
theorem supervisorLoop_ticks :
    ∀ pre : List SupEvent, (∀ e ∈ pre, e = SupEvent.tickOk) → ∀ tail,
      supervisorLoop (pre ++ tail) =
        List.replicate pre.length SupAction.inProgress ++ supervisorLoop tail := by
  intro pre
  induction pre with
  | nil => intro _ tail; rfl
  | cons e rest ih =>
      intro hpre tail
      have he : e = SupEvent.tickOk := hpre e (by simp)
      subst he
      simp [supervisorLoop, List.replicate_succ, ih (fun x hx => hpre x (by simp [hx])) tail]

/-- Helper: the last action of a trace ending in a given action. -/
theorem lastAction_concat (t : List SupAction) (a : SupAction) :
    lastAction (t ++ [a]) = some a := by
  induction t with
  | nil => rfl
  | cons x rest ih =>
      cases rest with
      | nil => rfl
      | cons y ys => exact ih

/-- C8: the run-handler supervisor arms its ticker with period
ack-wait minus a third, emits the in-progress signal first thing, and ends
by returning the handler's result when the handler finishes after successful
ticks, or the failing extension's error when a tick's in-progress call
fails. -/
theorem runHandler_supervisor (ackWait : Nat) (events : List SupEvent) :
    (runHandlerTrace ackWait events).1 = ackWait - ackWait / 3 ∧
    (runHandlerTrace ackWait events).2.head? = some SupAction.inProgress ∧
    (∀ pre r post, events = pre ++ SupEvent.handlerDone r :: post →
      (∀ e ∈ pre, e = SupEvent.tickOk) →
      lastAction (runHandlerTrace ackWait events).2 = some (SupAction.returned r)) ∧
    (∀ pre e post, events = pre ++ SupEvent.tickFail e :: post →
      (∀ x ∈ pre, x = SupEvent.tickOk) →
      lastAction (runHandlerTrace ackWait events).2 =
        some (SupAction.returned (some e))) := by
  refine ⟨rfl, rfl, ?_, ?_⟩
  · intro pre r post hsplit hpre
    subst hsplit
    have hloop := supervisorLoop_ticks pre hpre (SupEvent.handlerDone r :: post)
    simp only [runHandlerTrace]
    rw [hloop]
    have h2 : supervisorLoop (SupEvent.handlerDone r :: post) = [SupAction.returned r] := rfl
    rw [h2]
    have h3 : SupAction.inProgress ::
        (List.replicate pre.length SupAction.inProgress ++ [SupAction.returned r]) =
        (SupAction.inProgress :: List.replicate pre.length SupAction.inProgress) ++
          [SupAction.returned r] := by simp
    rw [h3]
    exact lastAction_concat _ _
  · intro pre e post hsplit hpre
    subst hsplit
    have hloop := supervisorLoop_ticks pre hpre (SupEvent.tickFail e :: post)
    simp only [runHandlerTrace]
    rw [hloop]
    have h2 : supervisorLoop (SupEvent.tickFail e :: post) =
        [SupAction.inProgress, SupAction.returned (some e)] := rfl
    rw [h2]
    have h3 : SupAction.inProgress ::
        (List.replicate pre.length SupAction.inProgress ++
          [SupAction.inProgress, SupAction.returned (some e)]) =
        (SupAction.inProgress :: (List.replicate pre.length SupAction.inProgress ++
          [SupAction.inProgress])) ++ [SupAction.returned (some e)] := by simp
    rw [h3]
    exact lastAction_concat _ _

/-- Witness for C8: one successful tick then a clean handler finish returns
the nil result. -/
theorem runHandler_supervisor_witness :
    lastAction (runHandlerTrace 60 [SupEvent.tickOk, SupEvent.handlerDone none]).2 =
      some (SupAction.returned none) :=
  (runHandler_supervisor 60 [SupEvent.tickOk, SupEvent.handlerDone none]).2.2.1
    [SupEvent.tickOk] none [] rfl (by decide)

/-- Helper: merging the literal notify channel into a dotted join. -/
theorem dotted_notify (X : String) :
    ("." : String) ++ ("notify." ++ X) = ".notify." ++ X := by
  rw [← String.append_assoc]
  have lit : ("." : String) ++ "notify." = ".notify." := by decide
  rw [lit]

/-- Helper: the replay seed subject, in dotted form. -/
theorem publishSubject_notify_event (a c : String) :
    publishSubject a [ChannelNotify, c, "event"] = a ++ ".notify." ++ c ++ ".event" := by
  simp [publishSubject, isFullSubject, goJoin, ChannelNotify, String.append_assoc,
    dotted_notify]

/-- C9: replay construction fails when no retained source event exists on
account.notify.sequence_id.event; otherwise it mints a replay sequence id of
the form replay- followed by 20 characters, creates a named non-durable
consumer filtered on account.notify.replay_id.* with deliver-all policy, and
publishes the retrieved payload at account.notify.replay_id.event. -/
theorem initReplayConsumer_spec (accountId sequenceId uuidStr : String)
    (getLastMsg : String → Except String (Option (List Nat)))
    (broker : String → Except String PubAck)
    (hlen : 20 ≤ uuidStr.toList.length) :
    (getLastMsg (SourceEventSubject accountId sequenceId) = Except.ok none →
      ∃ e, initReplayConsumer accountId sequenceId uuidStr getLastMsg none broker =
        Except.error e) ∧
    (∀ srcData,
      getLastMsg (SourceEventSubject accountId sequenceId) = Except.ok (some srcData) →
      initReplayConsumer accountId sequenceId uuidStr getLastMsg none broker =
        Except.ok
          { consumerName := mkReplaySequenceId uuidStr
            consumerDurable := false
            filterSubject := accountId ++ ".notify." ++ mkReplaySequenceId uuidStr ++ ".*"
            deliverAll := true
            publishedSubject :=
              accountId ++ ".notify." ++ mkReplaySequenceId uuidStr ++ ".event"
            publishedData := srcData } ∧
      (∃ tail, (mkReplaySequenceId uuidStr).toList = "replay-".toList ++ tail ∧
        tail.length = 20)) := by
  constructor
  · intro h
    refine ⟨"No source event found for subject " ++ SourceEventSubject accountId sequenceId, ?_⟩
    simp [initReplayConsumer, h]
  · intro srcData h
    constructor
    · simp [initReplayConsumer, h, clientPublish_subject, clientPublish_data,
        ReplayFilterSubject, publishSubject_notify_event]
    · refine ⟨uuidStr.toList.take 20, rfl, ?_⟩
      have hlen2 : 20 ≤ uuidStr.length := hlen
      simp [List.length_take]
      omega

/-- Witness for C9: a concrete replay construction from a retained source
event. -/
theorem initReplayConsumer_spec_witness :
    initReplayConsumer "acct" "OLD" "0123456789abcdefghijklmnopqrstuvwxyz"
        (fun _ => Except.ok (some [7])) none (fun _ => Except.ok 1) =
      Except.ok
        { consumerName := mkReplaySequenceId "0123456789abcdefghijklmnopqrstuvwxyz"
          consumerDurable := false
          filterSubject := "acct" ++ ".notify." ++
            mkReplaySequenceId "0123456789abcdefghijklmnopqrstuvwxyz" ++ ".*"
          deliverAll := true
          publishedSubject := "acct" ++ ".notify." ++
            mkReplaySequenceId "0123456789abcdefghijklmnopqrstuvwxyz" ++ ".event"
          publishedData := [7] } ∧
    (∃ tail, (mkReplaySequenceId "0123456789abcdefghijklmnopqrstuvwxyz").toList =
        "replay-".toList ++ tail ∧ tail.length = 20) :=
  (initReplayConsumer_spec "acct" "OLD" "0123456789abcdefghijklmnopqrstuvwxyz"
      (fun _ => Except.ok (some [7])) (fun _ => Except.ok 1) (by decide)).2 [7] rfl

/-- C10: the replay seed publish is unchecked: even when the broker rejects
the publish of the source payload under the replay sequence id,
initReplayConsumer still succeeds and NewReplayClient hands back the client
with its ephemeral consumer. -/
theorem replay_seed_publish_unchecked (accountId sequenceId uuidStr : String)
    (getLastMsg : String → Except String (Option (List Nat)))
    (srcData : List Nat) (pubErr : String)
    (hsrc : getLastMsg (SourceEventSubject accountId sequenceId) =
      Except.ok (some srcData)) :
    ∃ client,
      initReplayConsumer accountId sequenceId uuidStr getLastMsg none
          (fun _ => Except.error pubErr) = Except.ok client ∧
      newReplayClient none none
        (initReplayConsumer accountId sequenceId uuidStr getLastMsg none
          (fun _ => Except.error pubErr)) = Except.ok client := by
  have hinit : initReplayConsumer accountId sequenceId uuidStr getLastMsg none
      (fun _ => Except.error pubErr) = Except.ok
        { consumerName := mkReplaySequenceId uuidStr
          consumerDurable := false
          filterSubject := ReplayFilterSubject accountId (mkReplaySequenceId uuidStr)
          deliverAll := true
          publishedSubject := publishSubject accountId
            [ChannelNotify, mkReplaySequenceId uuidStr, "event"]
          publishedData := srcData } := by
    simp [initReplayConsumer, hsrc, clientPublish_subject, clientPublish_data]
  exact ⟨_, hinit, hinit⟩

/-- Witness for C10: a failing seed publish still yields a replay client. -/
theorem replay_seed_publish_unchecked_witness :
    ∃ client,
      initReplayConsumer "acct" "OLD" "0123456789abcdefghijklmnopqrstuvwxyz"
          (fun _ => Except.ok (some [7])) none
          (fun _ => Except.error "publish rejected") = Except.ok client ∧
      newReplayClient none none
        (initReplayConsumer "acct" "OLD" "0123456789abcdefghijklmnopqrstuvwxyz"
          (fun _ => Except.ok (some [7])) none
          (fun _ => Except.error "publish rejected")) = Except.ok client :=
  replay_seed_publish_unchecked "acct" "OLD" "0123456789abcdefghijklmnopqrstuvwxyz"
    (fun _ => Except.ok (some [7])) [7] "publish rejected" rfl

end Hops
